import Mathlib

/-!
Shallow embedding of the chess rules engine in `src/chessV5_GUI.cpp`.

Conventions mirrored from the source:
* the board is an 8×8 grid indexed `[row][col]`, row 0 = black's back rank,
  row 7 = white's back rank; coordinates are `Int` (the C++ uses `int`);
* squares outside the 8×8 grid are never read by the engine, so the board is
  modelled as a total function `Int → Int → Piece` whose values off the grid
  are irrelevant;
* the repetition table `unordered_map<string,int>` (with `operator[]`
  defaulting to 0) is modelled as the total function `String → Nat`;
* the source's `isSquareAttacked` and `canPieceMoveTo` are mutually
  recursive, but the recursion is cut by the raw-attack flag: with
  `ignoreCheck = true` the castling branch (the only call back into
  `isSquareAttacked`) is dead.  The embedding makes that explicit by
  defining `canPieceMoveToRaw` (the `ignoreCheck = true` behaviour) first,
  then `isSquareAttacked` on top of it, then the full `canPieceMoveTo`;
  `isSquareAttackedSrc` below re-states the source's literal call through
  the full function, and is proved equal to `isSquareAttacked`.
-/

inductive PieceType where
  | empty | pawn | knight | bishop | rook | queen | king
deriving DecidableEq

inductive Color where
  | none | white | black
deriving DecidableEq

structure Piece where
  type : PieceType
  color : Color
  hasMoved : Bool
deriving DecidableEq

/-- `Piece()` default constructor: an empty square. -/
def emptyPiece : Piece := ⟨PieceType.empty, Color.none, false⟩

structure Move where
  fromRow : Int
  fromCol : Int
  toRow : Int
  toCol : Int
  promotion : PieceType
  isEnPassant : Bool
  isCastling : Bool
deriving DecidableEq

abbrev Board : Type := Int → Int → Piece

/-- Assignment `board[r][c] = p` on the functional board. -/
def updateBoard (b : Board) (r c : Int) (p : Piece) : Board :=
  fun r2 c2 => if r2 = r ∧ c2 = c then p else b r2 c2

/-- The `Position` data of the engine: the mutable board-and-metadata
fields of class `ChessGame` (board, side to move, en-passant target,
halfmove clock, repetition table). -/
structure Pos where
  board : Board
  currentPlayer : Color
  enPassantCol : Int
  enPassantRow : Int
  halfMoveClock : Int
  positionCount : String → Nat

def opponent : Color → Color
  | Color.white => Color.black
  | _ => Color.white

/-- Loop bounds `for (int i = 0; i < 8; i++)`. -/
def range8 : List Int := [0, 1, 2, 3, 4, 5, 6, 7]

/-- All board squares in the source's row-major scan order. -/
def allSquares : List (Int × Int) :=
  range8.flatMap fun r => range8.map fun c => (r, c)

/-- `findKing`: row-major scan for the first king of the given color.
The source leaves the out-parameters untouched when no king exists (the
spec calls a missing king a programming-error condition); the embedding
returns `none` in that case. -/
def findKing (st : Pos) (c : Color) : Option (Int × Int) :=
  allSquares.find? fun rc =>
    (st.board rc.1 rc.2).type = PieceType.king ∧ (st.board rc.1 rc.2).color = c

/-- The sliding-collision loop `for (r=fr+sr,c=fc+sc; r!=tr||c!=tc; ...)`
(also the castling gap loop, with `sr = 0`): checks that the next `n`
squares along direction `(sr, sc)` starting after `(r, c)` are all empty. -/
def clearBetween (b : Board) (r c sr sc : Int) : Nat → Bool
  | 0 => true
  | Nat.succ n =>
      if (b (r + sr) (c + sc)).type = PieceType.empty then
        clearBetween b (r + sr) (c + sc) sr sc n
      else false

/-- `canPieceMoveTo(fr,fc,tr,tc,true)`: raw-attack mode, in which the
castling branch is dead and the function makes no attack-detection call. -/
def canPieceMoveToRaw (st : Pos) (fr fc tr tc : Int) : Bool :=
  let p := st.board fr fc
  if p.type = PieceType.empty ∨ (st.board tr tc).color = p.color then false
  else
    let dr := tr - fr
    let dc := tc - fc
    match p.type with
    | PieceType.pawn =>
        let dir : Int := if p.color = Color.white then -1 else 1
        if dc = 0 ∧ dr = dir ∧ (st.board tr tc).type = PieceType.empty then true
        else if dc = 0 ∧ dr = 2 * dir ∧ p.hasMoved = false ∧
            (st.board (fr + dir) fc).type = PieceType.empty ∧
            (st.board tr tc).type = PieceType.empty then true
        else if dc.natAbs = 1 ∧ dr = dir then
          if (st.board tr tc).type ≠ PieceType.empty then true
          else decide (tc = st.enPassantCol ∧
            tr = (if p.color = Color.white then (2 : Int) else 5))
        else false
    | PieceType.knight =>
        decide ((dr.natAbs = 2 ∧ dc.natAbs = 1) ∨ (dr.natAbs = 1 ∧ dc.natAbs = 2))
    | PieceType.king => decide (dr.natAbs ≤ 1 ∧ dc.natAbs ≤ 1)
    | _ =>
        let diag := dr.natAbs = dc.natAbs
        let straight := dr = 0 ∨ dc = 0
        if p.type = PieceType.bishop ∧ ¬ diag then false
        else if p.type = PieceType.rook ∧ ¬ straight then false
        else if p.type = PieceType.queen ∧ ¬ (diag ∨ straight) then false
        else
          let sr : Int := if 0 < dr then 1 else if dr < 0 then -1 else 0
          let sc : Int := if 0 < dc then 1 else if dc < 0 then -1 else 0
          clearBetween st.board fr fc sr sc (max dr.natAbs dc.natAbs - 1)

/-- `isSquareAttacked(tr,tc,by)`: scan all pieces of color `b`; pawns use
their two diagonal-forward attack squares, every other piece is checked
through the movement rules in raw-attack mode. -/
def isSquareAttacked (st : Pos) (tr tc : Int) (b : Color) : Bool :=
  allSquares.any fun rc =>
    let p := st.board rc.1 rc.2
    if p.color = b then
      if p.type = PieceType.pawn then
        let dir : Int := if b = Color.white then -1 else 1
        decide (rc.1 + dir = tr ∧ (rc.2 - tc).natAbs = 1)
      else canPieceMoveToRaw st rc.1 rc.2 tr tc
    else false

/-- `canPieceMoveTo(fr,fc,tr,tc,ignoreCheck)`: full movement rules.  The
castling branch is guarded by `!ignoreCheck` and is the only place that
consults attack detection. -/
def canPieceMoveTo (st : Pos) (fr fc tr tc : Int) (ignoreCheck : Bool) : Bool :=
  let p := st.board fr fc
  if p.type = PieceType.empty ∨ (st.board tr tc).color = p.color then false
  else
    let dr := tr - fr
    let dc := tc - fc
    match p.type with
    | PieceType.pawn =>
        let dir : Int := if p.color = Color.white then -1 else 1
        if dc = 0 ∧ dr = dir ∧ (st.board tr tc).type = PieceType.empty then true
        else if dc = 0 ∧ dr = 2 * dir ∧ p.hasMoved = false ∧
            (st.board (fr + dir) fc).type = PieceType.empty ∧
            (st.board tr tc).type = PieceType.empty then true
        else if dc.natAbs = 1 ∧ dr = dir then
          if (st.board tr tc).type ≠ PieceType.empty then true
          else decide (tc = st.enPassantCol ∧
            tr = (if p.color = Color.white then (2 : Int) else 5))
        else false
    | PieceType.knight =>
        decide ((dr.natAbs = 2 ∧ dc.natAbs = 1) ∨ (dr.natAbs = 1 ∧ dc.natAbs = 2))
    | PieceType.king =>
        if dr.natAbs ≤ 1 ∧ dc.natAbs ≤ 1 then true
        else if ignoreCheck = false ∧ dr = 0 ∧ dc.natAbs = 2 ∧ p.hasMoved = false then
          let rookCol : Int := if 0 < dc then 7 else 0
          let step : Int := if 0 < dc then 1 else -1
          decide ((st.board fr rookCol).type = PieceType.rook) &&
          (!(st.board fr rookCol).hasMoved) &&
          clearBetween st.board fr fc 0 step ((rookCol - fc).natAbs - 1) &&
          (!isSquareAttacked st fr fc (opponent p.color)) &&
          (!isSquareAttacked st fr (fc + step) (opponent p.color)) &&
          (!isSquareAttacked st tr tc (opponent p.color))
        else false
    | _ =>
        let diag := dr.natAbs = dc.natAbs
        let straight := dr = 0 ∨ dc = 0
        if p.type = PieceType.bishop ∧ ¬ diag then false
        else if p.type = PieceType.rook ∧ ¬ straight then false
        else if p.type = PieceType.queen ∧ ¬ (diag ∨ straight) then false
        else
          let sr : Int := if 0 < dr then 1 else if dr < 0 then -1 else 0
          let sc : Int := if 0 < dc then 1 else if dc < 0 then -1 else 0
          clearBetween st.board fr fc sr sc (max dr.natAbs dc.natAbs - 1)

/-- The source's literal attack scan, which calls the full
`canPieceMoveTo` with `ignoreCheck = true` for non-pawn pieces. -/
def isSquareAttackedSrc (st : Pos) (tr tc : Int) (b : Color) : Bool :=
  allSquares.any fun rc =>
    let p := st.board rc.1 rc.2
    if p.color = b then
      if p.type = PieceType.pawn then
        let dir : Int := if b = Color.white then -1 else 1
        decide (rc.1 + dir = tr ∧ (rc.2 - tc).natAbs = 1)
      else canPieceMoveTo st rc.1 rc.2 tr tc true
    else false

def isInCheck (st : Pos) (c : Color) : Bool :=
  match findKing st c with
  | some kc => isSquareAttacked st kc.1 kc.2 (opponent c)
  | none => false

/-- `testMove`: relocate the piece from `(fr,fc)` to `(tr,tc)` (with no
special-move handling), test whether the mover's color is in check, and
report the result (the source then reverts the board). -/
def testMove (st : Pos) (fr fc tr tc : Int) : Bool :=
  let a := st.board fr fc
  let b2 := updateBoard (updateBoard st.board tr tc a) fr fc emptyPiece
  !(isInCheck { st with board := b2 } a.color)

/-- The moves pushed for one accepted `(r,col) → (tr,tc)` candidate:
tag `isCastling` / `isEnPassant`, and expand a pawn reaching the last rank
into the four promotion variants, queen first. -/
def mkMoves (st : Pos) (c : Color) (r col tr tc : Int) : List Move :=
  let pc := st.board r col
  let m : Move :=
    { fromRow := r, fromCol := col, toRow := tr, toCol := tc,
      promotion := PieceType.empty,
      isEnPassant := decide (pc.type = PieceType.pawn ∧ tc = st.enPassantCol ∧
        tr = (if c = Color.white then (2 : Int) else 5)),
      isCastling := decide (pc.type = PieceType.king ∧ (tc - col).natAbs = 2) }
  if pc.type = PieceType.pawn ∧ (tr = 0 ∨ tr = 7) then
    [PieceType.queen, PieceType.rook, PieceType.bishop, PieceType.knight].map
      (fun pt => { m with promotion := pt })
  else [m]

/-- `getLegalMoves(c)`: every source square of color `c` against every
target square, kept when the movement rules accept it in full-legality
mode and the make/test/unmake probe leaves the mover's king safe. -/
def getLegalMoves (st : Pos) (c : Color) : List Move :=
  range8.flatMap fun r => range8.flatMap fun col =>
    if (st.board r col).color = c then
      range8.flatMap fun tr => range8.flatMap fun tc =>
        if (canPieceMoveTo st r col tr tc false && testMove st r col tr tc) = true then
          mkMoves st c r col tr tc
        else []
    else []

def pieceTypeCode : PieceType → Nat
  | PieceType.empty => 0
  | PieceType.pawn => 1
  | PieceType.knight => 2
  | PieceType.bishop => 3
  | PieceType.rook => 4
  | PieceType.queen => 5
  | PieceType.king => 6

def colorCode : Color → Nat
  | Color.none => 0
  | Color.white => 1
  | Color.black => 2

/-- `getPositionKey`: two characters `'0'+type`, `'0'+color` per square in
row-major order, then `'0'+currentPlayer`. -/
def getPositionKey (st : Pos) : String :=
  String.mk ((allSquares.flatMap fun rc =>
    [Char.ofNat (48 + pieceTypeCode (st.board rc.1 rc.2).type),
     Char.ofNat (48 + colorCode (st.board rc.1 rc.2).color)]) ++
    [Char.ofNat (48 + colorCode st.currentPlayer)])

/-- The scan inside `insufficientMaterial`: early `return false` on any
non-king, non-minor piece, otherwise count minors and finally test
`minor <= 1`. -/
def insuffAux (b : Board) : List (Int × Int) → Nat → Bool
  | [], minor => decide (minor ≤ 1)
  | rc :: rest, minor =>
      let p := b rc.1 rc.2
      if p.type ≠ PieceType.empty ∧ p.type ≠ PieceType.king then
        if p.type = PieceType.bishop ∨ p.type = PieceType.knight then
          insuffAux b rest (minor + 1)
        else false
      else insuffAux b rest minor

def insufficientMaterial (st : Pos) : Bool := insuffAux st.board allSquares 0

/-- `getGameStatus`: repetition, then 50-move, then insufficient material,
then the legal-move classification. -/
def getGameStatus (st : Pos) : String :=
  if 3 ≤ st.positionCount (getPositionKey st) then "draw (threefold repetition)"
  else if 100 ≤ st.halfMoveClock then "draw (50-move rule)"
  else if insufficientMaterial st then "draw (insufficient material)"
  else
    let moves := getLegalMoves st st.currentPlayer
    if moves = [] then
      if isInCheck st st.currentPlayer then "checkmate" else "stalemate"
    else if isInCheck st st.currentPlayer then "check" else "active"

/-- The `Position` mutation performed by `makeMove` (lines after the
history bookkeeping): halfmove clock, en-passant pawn removal, en-passant
target update, castling rook relocation, piece relocation, promotion,
side flip, repetition increment — in the source's order. -/
def applyMove (st : Pos) (m : Move) : Pos :=
  let p := st.board m.fromRow m.fromCol
  let clock2 : Int :=
    if p.type = PieceType.pawn ∨ (st.board m.toRow m.toCol).type ≠ PieceType.empty then 0
    else st.halfMoveClock + 1
  let b1 :=
    if m.isEnPassant then
      updateBoard st.board
        (if p.color = Color.white then m.toRow + 1 else m.toRow - 1) m.toCol emptyPiece
    else st.board
  let epCol2 : Int :=
    if p.type = PieceType.pawn ∧ (m.toRow - m.fromRow).natAbs = 2 then m.toCol else -1
  let epRow2 : Int :=
    if p.type = PieceType.pawn ∧ (m.toRow - m.fromRow).natAbs = 2 then m.toRow else -1
  let b2 :=
    if m.isCastling then
      let rookFrom : Int := if m.fromCol < m.toCol then 7 else 0
      let rookTo : Int := if m.fromCol < m.toCol then m.toCol - 1 else m.toCol + 1
      updateBoard (updateBoard b1 m.fromRow rookTo (b1 m.fromRow rookFrom))
        m.fromRow rookFrom emptyPiece
    else b1
  let b3 := updateBoard b2 m.toRow m.toCol { p with hasMoved := true }
  let b4 := updateBoard b3 m.fromRow m.fromCol emptyPiece
  let b5 :=
    if m.promotion ≠ PieceType.empty then
      updateBoard b4 m.toRow m.toCol { b4 m.toRow m.toCol with type := m.promotion }
    else b4
  let st2 : Pos :=
    { board := b5, currentPlayer := opponent st.currentPlayer,
      enPassantCol := epCol2, enPassantRow := epRow2, halfMoveClock := clock2,
      positionCount := st.positionCount }
  let key := getPositionKey st2
  { st2 with positionCount := fun k => if k = key then st.positionCount k + 1 else st.positionCount k }

/-- The engine instance: Position plus the undo/redo snapshot stacks and
the append-only move log with its cursor (`historyCurrent`).  The cursor
is the 1-based index of the current log entry, 0 meaning null. -/
structure Game where
  pos : Pos
  undoStack : List Pos
  redoStack : List Pos
  history : List Move
  historyCursor : Nat

/-- `makeMove`: snapshot onto the undo stack, clear the redo stack, append
to the log (cursor to the new tail), then apply the move to the Position. -/
def makeMove (g : Game) (m : Move) : Game :=
  { pos := applyMove g.pos m,
    undoStack := g.pos :: g.undoStack,
    redoStack := [],
    history := g.history ++ [m],
    historyCursor := g.history.length + 1 }

/-- `undo()`: no-op on an empty undo stack; else push the live Position on
the redo stack, restore the popped snapshot, move the cursor back. -/
def undoGame (g : Game) : Game :=
  match g.undoStack with
  | [] => g
  | u :: us =>
      { pos := u, undoStack := us, redoStack := g.pos :: g.redoStack,
        history := g.history, historyCursor := g.historyCursor - 1 }

/-- `redo()`: no-op on an empty redo stack; else push the live Position on
the undo stack, restore the popped snapshot, move the cursor forward (to
the log head when it was null). -/
def redoGame (g : Game) : Game :=
  match g.redoStack with
  | [] => g
  | x :: xs =>
      { pos := x, undoStack := g.pos :: g.undoStack, redoStack := xs,
        history := g.history,
        historyCursor :=
          if g.historyCursor = 0 then (if g.history = [] then 0 else 1)
          else if g.historyCursor < g.history.length then g.historyCursor + 1
          else g.historyCursor }

/-- `tolower` on an ASCII character (the "C" locale behaviour used by the
source on coordinate text). -/
def asciiToLower (ch : Char) : Char :=
  if 65 ≤ ch.toNat ∧ ch.toNat ≤ 90 then Char.ofNat (ch.toNat + 32) else ch

/-- `toupper` on an ASCII character. -/
def asciiToUpper (ch : Char) : Char :=
  if 97 ≤ ch.toNat ∧ ch.toNat ≤ 122 then Char.ofNat (ch.toNat - 32) else ch

/-- `parseMove`: lowercase the text, read file/rank pairs, read an optional
promotion letter, and succeed only when both squares are on the board. -/
def parseMove (s : String) : Option Move :=
  let cs := s.data.map asciiToLower
  match cs with
  | c0 :: c1 :: c2 :: c3 :: rest =>
      let fc : Int := (c0.toNat : Int) - 97
      let fr : Int := 8 - ((c1.toNat : Int) - 48)
      let tc : Int := (c2.toNat : Int) - 97
      let tr : Int := 8 - ((c3.toNat : Int) - 48)
      let promo : PieceType :=
        match rest with
        | p :: _ =>
            let pu := asciiToUpper p
            if pu = 'Q' then PieceType.queen
            else if pu = 'R' then PieceType.rook
            else if pu = 'B' then PieceType.bishop
            else if pu = 'N' then PieceType.knight
            else PieceType.empty
        | [] => PieceType.empty
      if 0 ≤ fr ∧ fr < 8 ∧ 0 ≤ fc ∧ fc < 8 ∧ 0 ≤ tr ∧ tr < 8 ∧ 0 ≤ tc ∧ tc < 8 then
        some { fromRow := fr, fromCol := fc, toRow := tr, toCol := tc,
               promotion := promo, isEnPassant := false, isCastling := false }
      else none
  | _ => none

/-- The matching loop of the `MOVE` command: the first generated legal move
whose from/to squares equal the parsed ones. -/
def findMatch (st : Pos) (u : Move) : Option Move :=
  (getLegalMoves st st.currentPlayer).find? fun m =>
    m.fromRow == u.fromRow && m.fromCol == u.fromCol &&
    m.toRow == u.toRow && m.toCol == u.toCol

/-- The state effect of one `MOVE <coord>` command: parse, match against
the legal moves of the side to move, and apply on success; on either
failure (`InvalidMove` / `IllegalMove`) the engine state is untouched. -/
def handleMove (g : Game) (s : String) : Game :=
  match parseMove s with
  | none => g
  | some u =>
      match findMatch g.pos u with
      | none => g
      | some a => makeMove g a

/-- `setupBoard`: the standard starting array. -/
def backRank : Int → PieceType := fun c =>
  if c = 0 ∨ c = 7 then PieceType.rook
  else if c = 1 ∨ c = 6 then PieceType.knight
  else if c = 2 ∨ c = 5 then PieceType.bishop
  else if c = 3 then PieceType.queen
  else PieceType.king

def initBoard : Board := fun r c =>
  if r = 0 then ⟨backRank c, Color.black, false⟩
  else if r = 1 then ⟨PieceType.pawn, Color.black, false⟩
  else if r = 6 then ⟨PieceType.pawn, Color.white, false⟩
  else if r = 7 then ⟨backRank c, Color.white, false⟩
  else emptyPiece

/-- The Position built by the `ChessGame` constructor (which also counts
the starting position once in the repetition table). -/
def initPos : Pos :=
  let st0 : Pos :=
    { board := initBoard, currentPlayer := Color.white,
      enPassantCol := -1, enPassantRow := -1, halfMoveClock := 0,
      positionCount := fun _ => 0 }
  { st0 with positionCount := fun k => if k = getPositionKey st0 then 1 else 0 }

def initialGame : Game :=
  { pos := initPos, undoStack := [], redoStack := [], history := [], historyCursor := 0 }

/-- The Positions reachable by applying engine-accepted (generated legal)
moves from the starting position.  `undo`/`redo` only restore snapshots of
previously reached Positions, so they add nothing to this set. -/
inductive ReachablePos : Pos → Prop where
  | init : ReachablePos initPos
  | step {st : Pos} {m : Move} : ReachablePos st →
      m ∈ getLegalMoves st st.currentPlayer → ReachablePos (applyMove st m)

/-- Modelled from the spec (section 4.4, condition 3): insufficient
material holds when, excluding kings, at most one minor piece (bishop or
knight) in total remains and no pawn, rook, or queen remains. -/
def insufficientMaterialSpec (st : Pos) : Bool :=
  decide ((allSquares.countP fun rc =>
      decide ((st.board rc.1 rc.2).type = PieceType.bishop ∨
              (st.board rc.1 rc.2).type = PieceType.knight)) ≤ 1) &&
  allSquares.all fun rc =>
    decide (¬ ((st.board rc.1 rc.2).type = PieceType.pawn ∨
               (st.board rc.1 rc.2).type = PieceType.rook ∨
               (st.board rc.1 rc.2).type = PieceType.queen))

/-- The corner the source pairs with a two-column king move
(`rookCol = dc>0?7:0`), phrased on the move's fields. -/
def castleRookCol (m : Move) : Int := if m.fromCol < m.toCol then 7 else 0

/-- The direction of a two-column king move (`step = dc>0?1:-1`). -/
def castleStep (m : Move) : Int := if m.fromCol < m.toCol then 1 else -1

def mvE2E4 : Move :=
  { fromRow := 6, fromCol := 4, toRow := 4, toCol := 4,
    promotion := PieceType.empty, isEnPassant := false, isCastling := false }

def mvA7A6 : Move :=
  { fromRow := 1, fromCol := 0, toRow := 2, toCol := 0,
    promotion := PieceType.empty, isEnPassant := false, isCastling := false }

def mvE4E5 : Move :=
  { fromRow := 4, fromCol := 4, toRow := 3, toCol := 4,
    promotion := PieceType.empty, isEnPassant := false, isCastling := false }

def mvD7D5 : Move :=
  { fromRow := 1, fromCol := 3, toRow := 3, toCol := 3,
    promotion := PieceType.empty, isEnPassant := false, isCastling := false }

/-- White's en-passant capture e5xd6 as the generator tags it. -/
def mvExd6 : Move :=
  { fromRow := 3, fromCol := 4, toRow := 2, toCol := 3,
    promotion := PieceType.empty, isEnPassant := true, isCastling := false }

/-- The position after 1.e4 a6 2.e5 d5 (the spec's en-passant vector,
with a6 as black's elided first move). -/
def epPos : Pos :=
  applyMove (applyMove (applyMove (applyMove initPos mvE2E4) mvA7A6) mvE4E5) mvD7D5

/-- White Kh1 mated by black Qg2 defended by Kg3 — no legal white moves
and white in check — with every position key counted three times. -/
def mateRepPos : Pos :=
  { board := fun r c =>
      if r = 7 ∧ c = 7 then ⟨PieceType.king, Color.white, true⟩
      else if r = 6 ∧ c = 6 then ⟨PieceType.queen, Color.black, true⟩
      else if r = 5 ∧ c = 6 then ⟨PieceType.king, Color.black, true⟩
      else emptyPiece,
    currentPlayer := Color.white, enPassantCol := -1, enPassantRow := -1,
    halfMoveClock := 0, positionCount := fun _ => 3 }

/-- White Ke1 and Rh1, both unmoved, black Ke8: white may castle short. -/
def castlePos : Pos :=
  { board := fun r c =>
      if r = 7 ∧ c = 4 then ⟨PieceType.king, Color.white, false⟩
      else if r = 7 ∧ c = 7 then ⟨PieceType.rook, Color.white, false⟩
      else if r = 0 ∧ c = 4 then ⟨PieceType.king, Color.black, true⟩
      else emptyPiece,
    currentPlayer := Color.white, enPassantCol := -1, enPassantRow := -1,
    halfMoveClock := 0, positionCount := fun _ => 0 }

def castleMv : Move :=
  { fromRow := 7, fromCol := 4, toRow := 7, toCol := 6,
    promotion := PieceType.empty, isEnPassant := false, isCastling := true }

def rookLift : Move :=
  { fromRow := 7, fromCol := 7, toRow := 4, toCol := 7,
    promotion := PieceType.empty, isEnPassant := false, isCastling := false }

def kbkPos : Pos :=
  { board := fun r c =>
      if r = 7 ∧ c = 4 then ⟨PieceType.king, Color.white, true⟩
      else if r = 4 ∧ c = 2 then ⟨PieceType.bishop, Color.white, true⟩
      else if r = 0 ∧ c = 4 then ⟨PieceType.king, Color.black, true⟩
      else emptyPiece,
    currentPlayer := Color.white, enPassantCol := -1, enPassantRow := -1,
    halfMoveClock := 0, positionCount := fun _ => 0 }

def knkPos : Pos :=
  { board := fun r c =>
      if r = 7 ∧ c = 4 then ⟨PieceType.king, Color.white, true⟩
      else if r = 4 ∧ c = 2 then ⟨PieceType.knight, Color.white, true⟩
      else if r = 0 ∧ c = 4 then ⟨PieceType.king, Color.black, true⟩
      else emptyPiece,
    currentPlayer := Color.white, enPassantCol := -1, enPassantRow := -1,
    halfMoveClock := 0, positionCount := fun _ => 0 }

def kbbPos : Pos :=
  { board := fun r c =>
      if r = 7 ∧ c = 4 then ⟨PieceType.king, Color.white, true⟩
      else if r = 4 ∧ c = 2 then ⟨PieceType.bishop, Color.white, true⟩
      else if r = 4 ∧ c = 5 then ⟨PieceType.bishop, Color.white, true⟩
      else if r = 0 ∧ c = 4 then ⟨PieceType.king, Color.black, true⟩
      else emptyPiece,
    currentPlayer := Color.white, enPassantCol := -1, enPassantRow := -1,
    halfMoveClock := 0, positionCount := fun _ => 0 }

/-- White pawn e7 about to promote, white Kh1, black Ka8, white to move. -/
def promoPos : Pos :=
  { board := fun r c =>
      if r = 1 ∧ c = 4 then ⟨PieceType.pawn, Color.white, true⟩
      else if r = 7 ∧ c = 7 then ⟨PieceType.king, Color.white, true⟩
      else if r = 0 ∧ c = 0 then ⟨PieceType.king, Color.black, true⟩
      else emptyPiece,
    currentPlayer := Color.white, enPassantCol := -1, enPassantRow := -1,
    halfMoveClock := 0, positionCount := fun _ => 0 }

def promoGame : Game :=
  { pos := promoPos, undoStack := [], redoStack := [], history := [], historyCursor := 0 }

/-- The game line 1.e4 a5 2.e5 Ra6 3.Ke2 Rb6 4.Kf3 Rb5 5.Kg4 h6 6.Kh5 d5,
after which white's en-passant capture e5xd6 is generated as legal but
uncovers the b5-rook's attack on the h5-king. -/
def c1m1 : Move := mvE2E4
def c1m2 : Move :=
  { fromRow := 1, fromCol := 0, toRow := 3, toCol := 0,
    promotion := PieceType.empty, isEnPassant := false, isCastling := false }
def c1m3 : Move := mvE4E5
def c1m4 : Move :=
  { fromRow := 0, fromCol := 0, toRow := 2, toCol := 0,
    promotion := PieceType.empty, isEnPassant := false, isCastling := false }
def c1m5 : Move :=
  { fromRow := 7, fromCol := 4, toRow := 6, toCol := 4,
    promotion := PieceType.empty, isEnPassant := false, isCastling := false }
def c1m6 : Move :=
  { fromRow := 2, fromCol := 0, toRow := 2, toCol := 1,
    promotion := PieceType.empty, isEnPassant := false, isCastling := false }
def c1m7 : Move :=
  { fromRow := 6, fromCol := 4, toRow := 5, toCol := 5,
    promotion := PieceType.empty, isEnPassant := false, isCastling := false }
def c1m8 : Move :=
  { fromRow := 2, fromCol := 1, toRow := 3, toCol := 1,
    promotion := PieceType.empty, isEnPassant := false, isCastling := false }
def c1m9 : Move :=
  { fromRow := 5, fromCol := 5, toRow := 4, toCol := 6,
    promotion := PieceType.empty, isEnPassant := false, isCastling := false }
def c1m10 : Move :=
  { fromRow := 1, fromCol := 7, toRow := 2, toCol := 7,
    promotion := PieceType.empty, isEnPassant := false, isCastling := false }
def c1m11 : Move :=
  { fromRow := 4, fromCol := 6, toRow := 3, toCol := 7,
    promotion := PieceType.empty, isEnPassant := false, isCastling := false }
def c1m12 : Move := mvD7D5

def c1p1 : Pos := applyMove initPos c1m1
def c1p2 : Pos := applyMove c1p1 c1m2
def c1p3 : Pos := applyMove c1p2 c1m3
def c1p4 : Pos := applyMove c1p3 c1m4
def c1p5 : Pos := applyMove c1p4 c1m5
def c1p6 : Pos := applyMove c1p5 c1m6
def c1p7 : Pos := applyMove c1p6 c1m7
def c1p8 : Pos := applyMove c1p7 c1m8
def c1p9 : Pos := applyMove c1p8 c1m9
def c1p10 : Pos := applyMove c1p9 c1m10
def c1p11 : Pos := applyMove c1p10 c1m11
def c1p12 : Pos := applyMove c1p11 c1m12

theorem updateBoard_read (b : Board) (r c : Int) (p : Piece) (r2 c2 : Int) :
    updateBoard b r c p r2 c2 = if r2 = r ∧ c2 = c then p else b r2 c2 := rfl

theorem mem_ite_nil {P : Prop} [Decidable P] {l : List Move} {a : Move} :
    (a ∈ if P then l else []) ↔ P ∧ a ∈ l := by
  split_ifs with h <;> simp [h]

theorem mem_range8 {n : Int} : n ∈ range8 ↔ 0 ≤ n ∧ n < 8 := by
  simp only [range8, List.mem_cons, List.not_mem_nil, or_false]
  omega

/-- Membership in the generated move list, unfolded to the per-candidate
acceptance test of the source's nested loops. -/
theorem mem_getLegalMoves {st : Pos} {c : Color} {m : Move} :
    m ∈ getLegalMoves st c ↔
      ∃ r ∈ range8, ∃ col ∈ range8,
        (st.board r col).color = c ∧
        ∃ tr ∈ range8, ∃ tc ∈ range8,
          (canPieceMoveTo st r col tr tc false && testMove st r col tr tc) = true ∧
          m ∈ mkMoves st c r col tr tc := by
  simp only [getLegalMoves, List.mem_flatMap, mem_ite_nil]

theorem mkMoves_coords {st : Pos} {c : Color} {r col tr tc : Int} {m : Move}
    (h : m ∈ mkMoves st c r col tr tc) :
    m.fromRow = r ∧ m.fromCol = col ∧ m.toRow = tr ∧ m.toCol = tc := by
  unfold mkMoves at h
  by_cases hp : (st.board r col).type = PieceType.pawn ∧ (tr = 0 ∨ tr = 7)
  · rw [if_pos hp] at h
    simp only [List.mem_map] at h
    obtain ⟨pt, _, rfl⟩ := h
    exact ⟨rfl, rfl, rfl, rfl⟩
  · rw [if_neg hp] at h
    simp only [List.mem_singleton] at h
    subst h
    exact ⟨rfl, rfl, rfl, rfl⟩

/-- Raw-attack mode of the movement rules never evaluates the castling
branch: with `ignoreCheck = true` the full function coincides with the
attack-free `canPieceMoveToRaw`. -/
theorem canPieceMoveTo_true_eq_raw (st : Pos) (fr fc tr tc : Int) :
    canPieceMoveTo st fr fc tr tc true = canPieceMoveToRaw st fr fc tr tc := by
  unfold canPieceMoveTo canPieceMoveToRaw
  by_cases h0 : (st.board fr fc).type = PieceType.empty ∨
      (st.board tr tc).color = (st.board fr fc).color
  · simp [h0]
  · simp only [if_neg h0]
    cases htype : (st.board fr fc).type <;> simp only [htype] <;> rfl

theorem isSquareAttackedSrc_eq (st : Pos) (tr tc : Int) (b : Color) :
    isSquareAttackedSrc st tr tc b = isSquareAttacked st tr tc b := by
  unfold isSquareAttackedSrc isSquareAttacked
  simp only [canPieceMoveTo_true_eq_raw]

theorem insuffAux_iff (b : Board) : ∀ (l : List (Int × Int)) (k : Nat),
    insuffAux b l k = true ↔
      ((l.countP fun rc => decide ((b rc.1 rc.2).type = PieceType.bishop ∨
          (b rc.1 rc.2).type = PieceType.knight)) + k ≤ 1 ∧
        ∀ rc ∈ l, ¬ ((b rc.1 rc.2).type = PieceType.pawn ∨
          (b rc.1 rc.2).type = PieceType.rook ∨ (b rc.1 rc.2).type = PieceType.queen))
  | [], k => by simp [insuffAux]
  | rc :: rest, k => by
      have ih1 := insuffAux_iff b rest (k + 1)
      have ih0 := insuffAux_iff b rest k
      cases htype : (b rc.1 rc.2).type <;>
        simp [insuffAux, htype, List.countP_cons, ih1, ih0, Nat.add_assoc,
          Nat.add_comm, Nat.add_left_comm]

theorem clearBetween_pos {b : Board} : ∀ (n : Nat) (r c : Int),
    clearBetween b r c 0 1 n = true → ∀ cc : Int, c < cc → cc ≤ c + n →
      (b r cc).type = PieceType.empty
  | 0, _, c, _, cc, h1, h2 => absurd h2 (by omega)
  | n + 1, r, c, h, cc, h1, h2 => by
      rw [clearBetween] at h
      split_ifs at h with hemp
      by_cases hcc : cc = c + 1
      · subst hcc
        simpa using hemp
      · have hrec := clearBetween_pos n (r + 0) (c + 1) h cc (by omega) (by push_cast at h2 ⊢; omega)
        simpa using hrec

theorem clearBetween_neg {b : Board} : ∀ (n : Nat) (r c : Int),
    clearBetween b r c 0 (-1) n = true → ∀ cc : Int, c - n ≤ cc → cc < c →
      (b r cc).type = PieceType.empty
  | 0, _, c, _, cc, h1, h2 => absurd h1 (by omega)
  | n + 1, r, c, h, cc, h1, h2 => by
      rw [clearBetween] at h
      split_ifs at h with hemp
      by_cases hcc : cc = c - 1
      · subst hcc
        have he : c + (-1 : Int) = c - 1 := by omega
        rw [he] at hemp
        simpa using hemp
      · have hrec := clearBetween_neg n (r + 0) (c + -1) h cc (by push_cast at h1 ⊢; omega) (by omega)
        simpa using hrec

/-- What membership in `getLegalMoves` gives about the move itself: the
mover is of the requested color, the movement rules accepted the move in
full-legality mode, the make/test/unmake probe passed, and the coordinates
are on the board. -/
theorem mem_getLegalMoves_fields {st : Pos} {c : Color} {m : Move}
    (h : m ∈ getLegalMoves st c) :
    (st.board m.fromRow m.fromCol).color = c ∧
    canPieceMoveTo st m.fromRow m.fromCol m.toRow m.toCol false = true ∧
    testMove st m.fromRow m.fromCol m.toRow m.toCol = true ∧
    (0 ≤ m.fromRow ∧ m.fromRow < 8) ∧ (0 ≤ m.fromCol ∧ m.fromCol < 8) ∧
    (0 ≤ m.toRow ∧ m.toRow < 8) ∧ (0 ≤ m.toCol ∧ m.toCol < 8) := by
  obtain ⟨r, hr, col, hcol, hcolor, tr, htr, tc, htc, hok, hmk⟩ := mem_getLegalMoves.mp h
  obtain ⟨h1, h2, h3, h4⟩ := mkMoves_coords hmk
  subst h1; subst h2; subst h3; subst h4
  rw [Bool.and_eq_true] at hok
  exact ⟨hcolor, hok.1, hok.2, mem_range8.mp hr, mem_range8.mp hcol,
    mem_range8.mp htr, mem_range8.mp htc⟩

/-- C9: attack detection terminates without recursing into castling: in
raw-attack mode the movement rules coincide with the attack-free
`canPieceMoveToRaw` (the castling branch is never evaluated), so the
source's attack scan (`isSquareAttackedSrc`, which calls the full
movement rules with `ignoreCheck = true`) is exactly the non-recursive
`isSquareAttacked`. -/
theorem claim9_attack_detection_never_recurses :
    (∀ (st : Pos) (fr fc tr tc : Int),
        canPieceMoveTo st fr fc tr tc true = canPieceMoveToRaw st fr fc tr tc) ∧
    (∀ (st : Pos) (tr tc : Int) (b : Color),
        isSquareAttackedSrc st tr tc b = isSquareAttacked st tr tc b) :=
  ⟨canPieceMoveTo_true_eq_raw, isSquareAttackedSrc_eq⟩

/-- C3: whenever the undo stack is non-empty, `undo()` followed by
`redo()` restores the Position componentwise (board, side to move,
en-passant target, halfmove clock, repetition counts). -/
theorem claim3_undo_redo_roundtrip (g : Game) (h : g.undoStack ≠ []) :
    (redoGame (undoGame g)).pos.board = g.pos.board ∧
    (redoGame (undoGame g)).pos.currentPlayer = g.pos.currentPlayer ∧
    (redoGame (undoGame g)).pos.enPassantCol = g.pos.enPassantCol ∧
    (redoGame (undoGame g)).pos.enPassantRow = g.pos.enPassantRow ∧
    (redoGame (undoGame g)).pos.halfMoveClock = g.pos.halfMoveClock ∧
    (redoGame (undoGame g)).pos.positionCount = g.pos.positionCount := by
  match hu : g.undoStack with
  | [] => exact absurd hu h
  | u :: us => simp [undoGame, redoGame, hu]

theorem claim3_witness :
    (redoGame (undoGame (makeMove initialGame mvE2E4))).pos.board
        = (makeMove initialGame mvE2E4).pos.board ∧
    (redoGame (undoGame (makeMove initialGame mvE2E4))).pos.currentPlayer
        = (makeMove initialGame mvE2E4).pos.currentPlayer ∧
    (redoGame (undoGame (makeMove initialGame mvE2E4))).pos.enPassantCol
        = (makeMove initialGame mvE2E4).pos.enPassantCol ∧
    (redoGame (undoGame (makeMove initialGame mvE2E4))).pos.enPassantRow
        = (makeMove initialGame mvE2E4).pos.enPassantRow ∧
    (redoGame (undoGame (makeMove initialGame mvE2E4))).pos.halfMoveClock
        = (makeMove initialGame mvE2E4).pos.halfMoveClock ∧
    (redoGame (undoGame (makeMove initialGame mvE2E4))).pos.positionCount
        = (makeMove initialGame mvE2E4).pos.positionCount :=
  claim3_undo_redo_roundtrip (makeMove initialGame mvE2E4) (by simp [makeMove])

/-- C2: a repetition count of at least 3 for the current key decides the
status as draw-by-repetition before any other condition (including
checkmate/stalemate classification) is consulted. -/
theorem claim2_repetition_precedence (st : Pos)
    (h : 3 ≤ st.positionCount (getPositionKey st)) :
    getGameStatus st = "draw (threefold repetition)" := by
  unfold getGameStatus
  rw [if_pos h]

theorem claim2_witness :
    getGameStatus mateRepPos = "draw (threefold repetition)" ∧
    getLegalMoves mateRepPos Color.white = [] ∧
    isInCheck mateRepPos Color.white = true :=
  ⟨claim2_repetition_precedence mateRepPos (by decide), by decide, by decide⟩

/-- C8: a `MOVE` command that fails to parse, or parses but matches no
generated legal move, leaves the whole engine state (Position, stacks,
move log, cursor) unchanged. -/
theorem claim8_error_no_mutation (g : Game) (s : String)
    (h : ∀ u : Move, parseMove s = some u → findMatch g.pos u = none) :
    handleMove g s = g := by
  unfold handleMove
  cases hp : parseMove s with
  | none => rfl
  | some u =>
      have hm := h u hp
      simp [hm]

theorem claim8_witness : handleMove initialGame "zzzz" = initialGame :=
  claim8_error_no_mutation initialGame "zzzz" (by
    intro u hu
    have hz : parseMove "zzzz" = none := by decide
    rw [hz] at hu
    exact Option.noConfusion hu)

/-- C10 (amended): after `apply(move)` the en-passant target is cleared
unless the mover is a pawn moving two rows, in which case both components
record the pawn's destination square — column `toCol` and row `toRow`
(the landing row, not the intermediate rank). -/
theorem claim10_amended (st : Pos) (m : Move) :
    (applyMove st m).enPassantCol =
      (if (st.board m.fromRow m.fromCol).type = PieceType.pawn ∧
          (m.toRow - m.fromRow).natAbs = 2 then m.toCol else -1) ∧
    (applyMove st m).enPassantRow =
      (if (st.board m.fromRow m.fromCol).type = PieceType.pawn ∧
          (m.toRow - m.fromRow).natAbs = 2 then m.toRow else -1) :=
  ⟨rfl, rfl⟩

/-- C10 (counterexample): the legal double step e2e4 produces an
en-passant target whose row component is 4 (the pawn's landing row), not
5 (the passed-over square e3, which a capturing black pawn would move
to), so the stored target is not the intermediate-rank square. -/
theorem claim10_counterexample :
    mvE2E4 ∈ getLegalMoves initPos Color.white ∧
    (applyMove initPos mvE2E4).enPassantCol = 4 ∧
    (applyMove initPos mvE2E4).enPassantRow = 4 ∧
    ((applyMove initPos mvE2E4).enPassantRow == (5 : Int)) = false :=
  ⟨by decide, by decide, by decide, by decide⟩

/-- C1 (amended): every generated legal move leaves the mover's king
unattacked in the position obtained by the bare from→to relocation the
engine actually tests (`testMove`), i.e. without en-passant pawn removal,
castling rook relocation, or promotion. -/
theorem claim1_amended (st : Pos) (c : Color) (m : Move)
    (h : m ∈ getLegalMoves st c) :
    isInCheck { st with board := updateBoard (updateBoard st.board m.toRow m.toCol
        (st.board m.fromRow m.fromCol)) m.fromRow m.fromCol emptyPiece } c = false := by
  obtain ⟨hcolor, -, htest, -⟩ := mem_getLegalMoves_fields h
  simp only [testMove, Bool.not_eq_true'] at htest
  rw [hcolor] at htest
  exact htest

theorem claim1_amended_witness :
    isInCheck { castlePos with
      board := updateBoard (updateBoard castlePos.board 4 7 (castlePos.board 7 7)) 7 7
        emptyPiece } Color.white = false :=
  claim1_amended castlePos Color.white rookLift (by decide)

set_option maxHeartbeats 2000000 in
/-- C4: executing a move flagged `isEnPassant` clears the square one rank
behind the destination relative to the mover's direction (row `toRow+1`
for white, `toRow-1` for black) in the destination column — the captured
pawn is taken from there, not from the destination square. -/
theorem claim4_en_passant_removes_behind (st : Pos) (m : Move)
    (h : m.isEnPassant = true) :
    (applyMove st m).board
      (if (st.board m.fromRow m.fromCol).color = Color.white then m.toRow + 1 else m.toRow - 1)
      m.toCol = emptyPiece := by
  by_cases hw : (st.board m.fromRow m.fromCol).color = Color.white <;>
    simp only [applyMove, h, hw, updateBoard_read, ite_apply, ite_true, ite_false, if_true,
      if_false, eq_self_iff_true, true_and, and_true, Bool.true_eq_false, false_and] <;>
    split_ifs <;> first | rfl | omega

/-- In the spec's vector 1.e4 a6 2.e5 d5, applying e5xd6 removes the
black pawn from d5 (row 3, col 3) and puts the white pawn on d6
(row 2, col 3). -/
theorem claim4_witness :
    epPos.board 3 3 = ⟨PieceType.pawn, Color.black, true⟩ ∧
    (applyMove epPos mvExd6).board 3 3 = emptyPiece ∧
    (applyMove epPos mvExd6).board 2 3 = ⟨PieceType.pawn, Color.white, true⟩ := by
  refine ⟨by decide, ?_, by decide⟩
  have hres := claim4_en_passant_removes_behind epPos mvExd6 rfl
  have hc : (epPos.board mvExd6.fromRow mvExd6.fromCol).color = Color.white := by decide
  rw [hc] at hres
  simpa using hres

/-- C7: the engine's insufficient-material rule is exactly "no pawn,
rook, or queen remains and at most one minor piece in total remains";
hence K+B vs K and K+N vs K are draws while K+B+B vs K is not. -/
theorem claim7_insufficient_material :
    (∀ st : Pos, insufficientMaterial st = insufficientMaterialSpec st) ∧
    insufficientMaterial kbkPos = true ∧
    getGameStatus kbkPos = "draw (insufficient material)" ∧
    insufficientMaterial knkPos = true ∧
    getGameStatus knkPos = "draw (insufficient material)" ∧
    insufficientMaterial kbbPos = false ∧
    getGameStatus kbbPos = "active" := by
  refine ⟨?_, by decide, by decide, by decide, by decide, by decide, by decide⟩
  intro st
  rw [Bool.eq_iff_iff]
  rw [insufficientMaterial, insuffAux_iff]
  unfold insufficientMaterialSpec
  simp [List.all_eq_true]

/-- C5: a castling move (king moving two columns) is generated only when
the king has never moved, the corner piece is an unmoved rook, every
square strictly between king and rook is empty, and none of the king's
current, transit, and destination squares is attacked by the opponent. -/
theorem claim5_castling_preconditions (st : Pos) (c : Color) (m : Move)
    (hm : m ∈ getLegalMoves st c)
    (hk : (st.board m.fromRow m.fromCol).type = PieceType.king)
    (hd : (m.toCol - m.fromCol).natAbs = 2) :
    m.toRow = m.fromRow ∧
    (st.board m.fromRow m.fromCol).hasMoved = false ∧
    (st.board m.fromRow (castleRookCol m)).type = PieceType.rook ∧
    (st.board m.fromRow (castleRookCol m)).hasMoved = false ∧
    (∀ cc : Int, (m.fromCol < cc ∧ cc < castleRookCol m) ∨
        (castleRookCol m < cc ∧ cc < m.fromCol) →
      (st.board m.fromRow cc).type = PieceType.empty) ∧
    isSquareAttacked st m.fromRow m.fromCol (opponent c) = false ∧
    isSquareAttacked st m.fromRow (m.fromCol + castleStep m) (opponent c) = false ∧
    isSquareAttacked st m.toRow m.toCol (opponent c) = false := by
  obtain ⟨hcolor, hcan, -, hfr, hfc, htr, htc⟩ := mem_getLegalMoves_fields hm
  subst hcolor
  unfold canPieceMoveTo at hcan
  by_cases h0 : (st.board m.fromRow m.fromCol).type = PieceType.empty ∨
      (st.board m.toRow m.toCol).color = (st.board m.fromRow m.fromCol).color
  · rw [if_pos h0] at hcan
    exact absurd hcan (by decide)
  rw [if_neg h0] at hcan
  simp only [hk, true_and] at hcan
  have hnear : ¬((m.toRow - m.fromRow).natAbs ≤ 1 ∧ (m.toCol - m.fromCol).natAbs ≤ 1) := by
    rintro ⟨-, h2⟩
    omega
  rw [if_neg hnear] at hcan
  by_cases hg : (m.toRow - m.fromRow = 0 ∧
      (m.toCol - m.fromCol).natAbs = 2 ∧ (st.board m.fromRow m.fromCol).hasMoved = false)
  case neg =>
    rw [if_neg hg] at hcan
    exact absurd hcan (by decide)
  case pos =>
  rw [if_pos hg] at hcan
  obtain ⟨hdr, -, hmoved⟩ := hg
  simp only [Bool.and_eq_true, decide_eq_true_eq, Bool.not_eq_true'] at hcan
  obtain ⟨⟨⟨⟨⟨hrook, hrmv⟩, hgap⟩, ha1⟩, ha2⟩, ha3⟩ := hcan
  have hrc : (if (0 : Int) < m.toCol - m.fromCol then (7 : Int) else 0) = castleRookCol m := by
    unfold castleRookCol
    split_ifs <;> omega
  have hst : (if (0 : Int) < m.toCol - m.fromCol then (1 : Int) else -1) = castleStep m := by
    unfold castleStep
    split_ifs <;> omega
  rw [hrc] at hrook hrmv hgap
  rw [hst] at hgap ha2
  refine ⟨by omega, hmoved, hrook, hrmv, ?_, ha1, ha2, ha3⟩
  intro cc hcc
  by_cases hdir : m.fromCol < m.toCol
  · have hrc7 : castleRookCol m = 7 := by
      unfold castleRookCol
      rw [if_pos hdir]
    have hs1 : castleStep m = 1 := by
      unfold castleStep
      rw [if_pos hdir]
    rw [hrc7] at hcc hgap
    rw [hs1] at hgap
    rcases hcc with ⟨h1, h2⟩ | ⟨h1, h2⟩
    · exact clearBetween_pos _ _ _ hgap cc h1 (by omega)
    · omega
  · have hrc0 : castleRookCol m = 0 := by
      unfold castleRookCol
      rw [if_neg hdir]
    have hsm1 : castleStep m = -1 := by
      unfold castleStep
      rw [if_neg hdir]
    rw [hrc0] at hcc hgap
    rw [hsm1] at hgap
    rcases hcc with ⟨h1, h2⟩ | ⟨h1, h2⟩
    · omega
    · exact clearBetween_neg _ _ _ hgap cc (by omega) h2

theorem claim5_witness :
    castleMv ∈ getLegalMoves castlePos Color.white ∧
    castleMv.toRow = castleMv.fromRow ∧
    (castlePos.board 7 4).hasMoved = false ∧
    (castlePos.board 7 7).type = PieceType.rook ∧
    (castlePos.board 7 7).hasMoved = false ∧
    (castlePos.board 7 5).type = PieceType.empty ∧
    (castlePos.board 7 6).type = PieceType.empty ∧
    isSquareAttacked castlePos 7 4 (opponent Color.white) = false ∧
    isSquareAttacked castlePos 7 5 (opponent Color.white) = false ∧
    isSquareAttacked castlePos 7 6 (opponent Color.white) = false := by
  have hmem : castleMv ∈ getLegalMoves castlePos Color.white := by decide
  have h := claim5_castling_preconditions castlePos Color.white castleMv hmem
    (by decide) (by decide)
  exact ⟨hmem, h.1, h.2.1, h.2.2.1, h.2.2.2.1,
    h.2.2.2.2.1 5 (by decide), h.2.2.2.2.1 6 (by decide),
    h.2.2.2.2.2.1, h.2.2.2.2.2.2.1, h.2.2.2.2.2.2.2⟩

theorem c1p1_reachable : ReachablePos c1p1 :=
  ReachablePos.step ReachablePos.init (by decide)

theorem c1p2_reachable : ReachablePos c1p2 :=
  ReachablePos.step c1p1_reachable (by decide)

theorem c1p3_reachable : ReachablePos c1p3 :=
  ReachablePos.step c1p2_reachable (by decide)

theorem c1p4_reachable : ReachablePos c1p4 :=
  ReachablePos.step c1p3_reachable (by decide)

theorem c1p5_reachable : ReachablePos c1p5 :=
  ReachablePos.step c1p4_reachable (by decide)

theorem c1p6_reachable : ReachablePos c1p6 :=
  ReachablePos.step c1p5_reachable (by decide)

theorem c1p7_reachable : ReachablePos c1p7 :=
  ReachablePos.step c1p6_reachable (by decide)

theorem c1p8_reachable : ReachablePos c1p8 :=
  ReachablePos.step c1p7_reachable (by decide)

theorem c1p9_reachable : ReachablePos c1p9 :=
  ReachablePos.step c1p8_reachable (by decide)

theorem c1p10_reachable : ReachablePos c1p10 :=
  ReachablePos.step c1p9_reachable (by decide)

theorem c1p11_reachable : ReachablePos c1p11 :=
  ReachablePos.step c1p10_reachable (by decide)

theorem c1p12_reachable : ReachablePos c1p12 :=
  ReachablePos.step c1p11_reachable (by decide)

/-- C1 (counterexample): in the reachable position after 1.e4 a5 2.e5
Ra6 3.Ke2 Rb6 4.Kf3 Rb5 5.Kg4 h6 6.Kh5 d5, the en-passant capture e5xd6
is generated as legal (the engine's probe only relocates the capturing
pawn, so the d5-pawn still shields the h5-king from the b5-rook), yet
applying it with full en-passant handling removes the d5-pawn and leaves
white's own king attacked. -/
theorem claim1_counterexample :
    ReachablePos c1p12 ∧
    mvExd6 ∈ getLegalMoves c1p12 Color.white ∧
    isInCheck (applyMove c1p12 mvExd6) Color.white = true :=
  ⟨c1p12_reachable, by decide, by decide⟩

/-- C6: the MOVE matcher compares only the from/to squares against the
generated moves, so `e7e8r` parses with promotion rook but the engine
selects and applies the first generated promotion variant — the queen. -/
theorem claim6_promotion_letter_ignored :
    (parseMove "e7e8r").map Move.promotion = some PieceType.rook ∧
    ((parseMove "e7e8r").bind fun u => findMatch promoPos u).map Move.promotion
        = some PieceType.queen ∧
    ((handleMove promoGame "e7e8r").pos.board 0 4).type = PieceType.queen :=
  ⟨by decide, by decide, by decide⟩
